import Mathlib

/-!
Verification development for the milli facet filter parser
(`src/milli/src/search/facet/filter_parser.rs`).

The parser is shallowly embedded: input strings are `List Char`, the nom
combinators used by the source (`tag`, `char`, `multispace0`, `take_till`,
`take_while1`, `many0`, `separated_list1`, `recognize_float`, `alt`,
`preceded`, `delimited`, `tuple`) are modelled as executable Lean functions,
and the nom error model (`Err::Error` soft backtrack vs `Err::Failure` hard
abort, with `VerboseError` accumulating `(span, kind)` pairs) is modelled
explicitly.  Rust `f64` payloads are modelled as `ℚ`: every numeric literal
appearing in the claims is exactly representable and every comparison
performed by the source (`<=` against the geo bounds) agrees with the
rational comparison at those values.
-/

/-- Characters of the remaining input; the parser works on `List Char`. -/
abbrev Chars := List Char

/-- Convert a string literal to parser input. -/
def toChars (s : String) : Chars := s.data

/-- Whitespace recognized by nom `multispace0`: space, tab, CR, LF. -/
def isSpaceChar (c : Char) : Bool := c = ' ' || c = '\t' || c = '\n' || c = '\r'

/-- Drop leading whitespace, the effect of `multispace0` (it never fails). -/
def dropSpaces (input : Chars) : Chars := input.dropWhile isSpaceChar

/-- Single quote character (code 39). -/
def squote : Char := Char.ofNat 39

/-- Double quote character (code 34). -/
def dquote : Char := Char.ofNat 34

/-- The nom `ErrorKind` values reachable in the modelled combinators. -/
inductive NKind where
  | tagK | charK | altK | takeWhile1K | sepListK | many0K | eofK | floatK
  deriving DecidableEq, Repr

/-- One `VerboseErrorKind` entry of a nom `VerboseError`: a context string
from `add_context`, a character from `from_char`, or an `ErrorKind` from
`from_error_kind`. -/
inductive VKind where
  | vctx (s : String)
  | vchr (c : Char)
  | vnom (k : NKind)
  deriving DecidableEq, Repr

/-- Model of `nom::error::VerboseError`: a list of `(span, kind)` pairs, the
span being the remaining input at the point the entry was recorded. -/
structure VError where
  errors : List (Chars × VKind)
  deriving DecidableEq, Repr

/-- Model of `ParseError::from_error_kind` for `VerboseError`. -/
def VError.fromKind (input : Chars) (k : NKind) : VError := ⟨[(input, .vnom k)]⟩

/-- Model of `ParseError::from_char` for `VerboseError`. -/
def VError.fromChar (input : Chars) (c : Char) : VError := ⟨[(input, .vchr c)]⟩

/-- Model of `ContextError::add_context` for `VerboseError` (pushes the
context entry after the existing ones). -/
def VError.addContext (input : Chars) (s : String) (e : VError) : VError :=
  ⟨e.errors ++ [(input, .vctx s)]⟩

/-- Model of `nom::Err`: `soft` is `Err::Error` (a recoverable backtrack,
`alt` tries the next branch) and `failure` is `Err::Failure` (hard abort). -/
inductive NomErr where
  | soft (e : VError)
  | failure (e : VError)
  deriving DecidableEq, Repr

/-- Model of `IResult<&str, α, VerboseError>`: remaining input and value, or
a nom error. -/
abbrev PResult (α : Type) := Except NomErr (Chars × α)

/-- Model of nom `alt` on two branches: a soft error from the first branch
falls through to the second; success and hard failures are final. -/
def altOr {α : Type} (r : PResult α) (p : Unit → PResult α) : PResult α :=
  match r with
  | .error (.soft _) => p ()
  | other => other

/-- Strip the tag `t` from the front of `input`, if present. -/
def stripTag : Chars → Chars → Option Chars
  | [], input => some input
  | _ :: _, [] => none
  | t :: ts, c :: cs => if c = t then stripTag ts cs else none

/-- Model of nom `tag`. -/
def tagP (t : Chars) (input : Chars) : PResult Chars :=
  match stripTag t input with
  | some rest => .ok (rest, t)
  | none => .error (.soft (VError.fromKind input .tagK))

/-- Model of nom `char`. -/
def charP (c : Char) (input : Chars) : PResult Char :=
  match input with
  | x :: rest => if x = c then .ok (rest, c) else .error (.soft (VError.fromChar input c))
  | [] => .error (.soft (VError.fromChar input c))

/-- Model of the source's `ws` combinator:
`delimited(multispace0, inner, multispace0)`. -/
def wsP {α : Type} (p : Chars → PResult α) (input : Chars) : PResult α :=
  match p (dropSpaces input) with
  | .ok (rest, a) => .ok (dropSpaces rest, a)
  | e => e

/-- Model of nom `take_till`: split at the first character satisfying `p`
(never fails). -/
def takeTill (p : Char → Bool) (input : Chars) : Chars × Chars :=
  (input.takeWhile (fun c => !(p c)), input.dropWhile (fun c => !(p c)))

/-- Model of nom `take_while1 p`. -/
def takeWhile1P (p : Char → Bool) (input : Chars) : PResult Chars :=
  match input.takeWhile p with
  | [] => .error (.soft (VError.fromKind input .takeWhile1K))
  | w => .ok (input.dropWhile p, w)

/-- Model of nom `many0 p` (fuel-indexed; `p` succeeding without consuming
is an error, as in nom). With fuel at least `input.length + 1` the
fuel-exhaustion branch is unreachable because every iteration consumes. -/
def many0F {α : Type} (p : Chars → PResult α) : Nat → Chars → PResult (List α)
  | 0, input => .ok (input, [])
  | fuel + 1, input =>
    match p input with
    | .error (.soft _) => .ok (input, [])
    | .error e => .error e
    | .ok (i1, a) =>
      if i1 = input then .error (.soft (VError.fromKind input .many0K))
      else
        match many0F p fuel i1 with
        | .error e => .error e
        | .ok (i2, rest) => .ok (i2, a :: rest)

/-- Loop of nom `separated_list1`: after the first element, repeatedly parse
a separator then an element; a soft error at either point ends the list at
the input position before the separator. -/
def sepList1Loop {α : Type} (sep : Chars → PResult Chars) (p : Chars → PResult α) :
    Nat → Chars → List α → PResult (List α)
  | 0, input, acc => .ok (input, acc.reverse)
  | fuel + 1, input, acc =>
    match sep input with
    | .error (.soft _) => .ok (input, acc.reverse)
    | .error e => .error e
    | .ok (i1, _) =>
      if i1 = input then .error (.soft (VError.fromKind input .sepListK))
      else
        match p i1 with
        | .error (.soft _) => .ok (input, acc.reverse)
        | .error e => .error e
        | .ok (i2, a) => sepList1Loop sep p fuel i2 (a :: acc)

/-- Model of nom `separated_list1(sep, p)` (fuel-indexed as `many0F`). -/
def sepList1 {α : Type} (sep : Chars → PResult Chars) (p : Chars → PResult α)
    (fuel : Nat) (input : Chars) : PResult (List α) :=
  match p input with
  | .error e => .error e
  | .ok (i1, a) => sepList1Loop sep p fuel i1 [a]

/-- Take the leading run of ASCII digits. -/
def takeDigits (input : Chars) : Chars × Chars :=
  (input.takeWhile Char.isDigit, input.dropWhile Char.isDigit)

/-- Exponent tail of nom `recognize_float`: `(e|E) (+|-)? digit+`, wholly
optional — if the digits are missing the exponent is not consumed. -/
def expTail (r : Chars) : Chars :=
  match r with
  | c :: r2 =>
    if c = 'e' ∨ c = 'E' then
      let r3 := match r2 with
        | s :: r4 => if s = '+' ∨ s = '-' then r4 else r2
        | [] => r2
      let (ds, r5) := takeDigits r3
      if ds = [] then r else r5
    else r
  | [] => r

/-- Model of nom `recognize_float`: `(+|-)? (digit+ (. digit*)? | . digit+)
 (e (+|-)? digit+)?`, returning the recognized slice. -/
def recognizeFloat (input : Chars) : PResult Chars :=
  let body : Chars := match input with
    | c :: r => if c = '+' ∨ c = '-' then r else input
    | [] => input
  let (ip, r1) := takeDigits body
  let after : Option Chars :=
    match ip, r1 with
    | [], '.' :: r2 =>
      let (fp, r3) := takeDigits r2
      if fp = [] then none else some r3
    | [], _ => none
    | _ :: _, '.' :: r2 => some (takeDigits r2).2
    | _ :: _, _ => some r1
  match after with
  | none => .error (.soft (VError.fromKind input .floatK))
  | some r4 =>
    let rest := expTail r4
    .ok (rest, input.take (input.length - rest.length))

/-- Numeric value of a digit run (most significant first). -/
def digitsNat (l : Chars) : Nat :=
  l.foldl (fun a c => 10 * a + (c.toNat - 48)) 0

/-- Rational value of a digit run. -/
def digitsQ (l : Chars) : ℚ := (digitsNat l : ℚ)

/-- Exponent/end-of-input tail of the Rust `str::parse::<f64>` grammar:
the whole remaining input must be `(e|E) (+|-)? digit+` or empty. -/
def floatExpQ (sign : ℚ) (m : ℚ) (r : Chars) : Option ℚ :=
  match r with
  | [] => some (sign * m)
  | c :: r2 =>
    if c = 'e' ∨ c = 'E' then
      let (pos, r3) : Bool × Chars := match r2 with
        | '+' :: r4 => (true, r4)
        | '-' :: r4 => (false, r4)
        | _ => (true, r2)
      let (eds, r5) := takeDigits r3
      if eds = [] ∨ r5 ≠ [] then none
      else some (sign * (if pos then m * 10 ^ digitsNat eds else m / 10 ^ digitsNat eds))
    else none

/-- Model of Rust `str::parse::<f64>` on the decimal fragment:
`(+|-)? (digit+ | digit+ . digit* | digit* . digit+) ((e|E) (+|-)? digit+)?`
consuming the whole input.  (`inf`/`nan` spellings, accepted by Rust, are
not modelled; no claim involves them.)  The value is computed exactly in
`ℚ`. -/
def parseFloatQ (input : Chars) : Option ℚ :=
  let (sign, r1) : ℚ × Chars := match input with
    | '+' :: r => (1, r)
    | '-' :: r => (-1, r)
    | _ => (1, input)
  let (ip, r2) := takeDigits r1
  match r2 with
  | '.' :: r3 =>
    let (fp, r4) := takeDigits r3
    if ip = [] ∧ fp = [] then none
    else floatExpQ sign (digitsQ ip + digitsQ fp / (10 : ℚ) ^ fp.length) r4
  | _ => if ip = [] then none else floatExpQ sign (digitsQ ip) r2

/-- Model of `Operator` as populated by the parsing functions and the
source's tests: numeric payloads are `f64` values (modelled as `ℚ`), the
equality payloads are an optional number plus the lowercased string. -/
inductive Operator where
  | GreaterThan (n : ℚ)
  | GreaterThanOrEqual (n : ℚ)
  | Equal (n : Option ℚ) (s : String)
  | NotEqual (n : Option ℚ) (s : String)
  | LowerThan (n : ℚ)
  | LowerThanOrEqual (n : ℚ)
  | Between (a b : ℚ)
  | GeoLowerThan (lat lng : ℚ) (d : ℚ)
  | GeoGreaterThan (lat lng : ℚ) (d : ℚ)
  deriving DecidableEq, Repr

/-- Model of `Operator::negate` (filter_parser.rs lines 65-77): returns the
negated operator, plus a second one for `Between`, whose two results the
caller joins with `Or`. -/
def Operator.negate : Operator → Operator × Option Operator
  | .GreaterThan n => (.LowerThanOrEqual n, none)
  | .GreaterThanOrEqual n => (.LowerThan n, none)
  | .Equal n s => (.NotEqual n s, none)
  | .NotEqual n s => (.Equal n s, none)
  | .LowerThan n => (.GreaterThanOrEqual n, none)
  | .LowerThanOrEqual n => (.GreaterThan n, none)
  | .Between n m => (.LowerThan n, some (.GreaterThan m))
  | .GeoLowerThan a b d => (.GeoGreaterThan a b d, none)
  | .GeoGreaterThan a b d => (.GeoLowerThan a b d, none)

/-- Model of `FilterCondition`: the condition tree with leaf operators,
`And`/`Or` nodes and the `Empty` marker. -/
inductive FilterCondition where
  | Operator (fid : Nat) (op : Operator)
  | Or (l r : FilterCondition)
  | And (l r : FilterCondition)
  | Empty
  deriving DecidableEq, Repr

/-- Modelled from the spec: `FilterCondition::negate` is declared outside
`src/` (only its caller `parse_not` and the in-src tests are available).
Per spec section 4.3 the two results of `Operator::negate` are combined as
an `Or` node by the caller, and per the De Morgan tree rewrite (spec
sections 2 and 9, confirmed by the in-src tests at lines 456-462 and
635-648) `And`/`Or` nodes negate to `Or`/`And` of negated children and
`Empty` stays `Empty`. -/
def FilterCondition.negate : FilterCondition → FilterCondition
  | .Operator fid op =>
    match op.negate with
    | (a, none) => .Operator fid a
    | (a, some b) => .Or (.Operator fid a) (.Operator fid b)
  | .Or a b => .And a.negate b.negate
  | .And a b => .Or a.negate b.negate
  | .Empty => .Empty

/-- Parsing context (`ParseContext`): the external schema is consulted only
through `FieldsIdsMap::id` (name to identifier lookup) and
`HashSet::contains` (filterable membership), modelled as the corresponding
functions. -/
structure ParseContext where
  fieldsIdsMap : String → Option Nat
  filterableFields : String → Bool

/-- Context message of the attribute resolution failure. -/
def attrNotFilterableMsg : String := "Attribute is not filterable"

/-- Model of `ParseContext::parse_fid` (lines 192-204): the field id is
returned only when the name is in the directory and in the filterable set;
otherwise a hard `Failure` carrying the remaining input `input` (not the
attribute `key`) is raised. -/
def parseFid (ctx : ParseContext) (input key : Chars) : Except NomErr Nat :=
  match ctx.fieldsIdsMap (String.mk key) with
  | some fid =>
    if ctx.filterableFields (String.mk key) then .ok fid
    else .error (.failure (VError.addContext input attrNotFilterableMsg
      (VError.fromChar input 'T')))
  | none => .error (.failure (VError.addContext input attrNotFilterableMsg
      (VError.fromChar input 'T')))

/-- Model of `ParseContext::parse_numeric` (lines 178-190): on a value that
does not parse as a number, a hard `Failure` carrying the value's first
character (or `Eof` when the value is empty). -/
def parseNumericE (input : Chars) : Except NomErr ℚ :=
  match parseFloatQ input with
  | some n => .ok n
  | none =>
    match input with
    | c :: _ => .error (.failure (VError.fromChar input c))
    | [] => .error (.failure (VError.fromKind input .eofK))

/-- Model of `ParseContext::is_key_component`.  (Rust `char::is_alphanumeric`
is Unicode; all claim inputs are ASCII, where `Char.isAlphanum` agrees.) -/
def isKeyComponent (c : Char) : Bool := c.isAlphanum || c = '_' || c = '-' || c = '.'

/-- Body-and-closing-delimiter part of the quoted alternatives of
`parse_value`: `delimited(char(q), take_till(c == q), char(q))`. -/
def quotedWith (q : Char) (input : Chars) : PResult Chars :=
  match charP q input with
  | .error e => .error e
  | .ok (r1, _) =>
    let (body, r2) := takeTill (fun c => c = q) r1
    match charP q r2 with
    | .error e => .error e
    | .ok (r3, _) => .ok (r3, body)

/-- Model of `ParseContext::parse_value` (lines 305-321): single-quoted,
double-quoted, or a bare word, each wrapped in `ws`. -/
def parseValue (input : Chars) : PResult Chars :=
  altOr (wsP (quotedWith squote) input) fun _ =>
  altOr (wsP (quotedWith dquote) input) fun _ =>
  wsP (takeWhile1P isKeyComponent) input

/-- Lowercased owned copy of a value: `value.to_string().to_lowercase()`
(ASCII case folding; all claim inputs are ASCII). -/
def lowerString (l : Chars) : String := String.mk (l.map Char.toLower)

/-- The comparison operator alternation of `parse_condition` (line 144):
`alt((tag("<="), tag(">="), tag("!="), tag("<"), tag(">"), tag("=")))`. -/
def conditionOperator (input : Chars) : PResult Chars :=
  altOr (tagP (toChars "<=") input) fun _ =>
  altOr (tagP (toChars ">=") input) fun _ =>
  altOr (tagP (toChars "!=") input) fun _ =>
  altOr (tagP (toChars "<") input) fun _ =>
  altOr (tagP (toChars ">") input) fun _ =>
  tagP (toChars "=") input

/-- The leading tuple of `parse_condition` (lines 145-146):
`tuple((parse_value, operator, parse_value))`, yielding
`(key, op, value)` and the remaining input. -/
def conditionHead (input : Chars) : PResult (Chars × Chars × Chars) :=
  match parseValue input with
  | .error e => .error e
  | .ok (r1, key) =>
    match conditionOperator r1 with
    | .error e => .error e
    | .ok (r2, op) =>
      match parseValue r2 with
      | .error e => .error e
      | .ok (r3, value) => .ok (r3, (key, op, value))

/-- Model of `ParseContext::parse_condition` (lines 140-176). -/
def parseCondition (ctx : ParseContext) (input : Chars) : PResult FilterCondition :=
  match conditionHead input with
  | .error e => .error e
  | .ok (rest, (key, op, value)) =>
    match parseFid ctx rest key with
    | .error e => .error e
    | .ok fid =>
      let r := parseNumericE value
      if op = toChars "=" then
        .ok (rest, .Operator fid (.Equal r.toOption (lowerString value)))
      else if op = toChars "!=" then
        .ok (rest, .Operator fid (.NotEqual r.toOption (lowerString value)))
      else if op = toChars ">" ∨ op = toChars "<" ∨ op = toChars "<=" ∨ op = toChars ">=" then
        match parseNumericE value with
        | .error e => .error e
        | .ok numeric =>
          if op = toChars ">" then .ok (rest, .Operator fid (.GreaterThan numeric))
          else if op = toChars "<" then .ok (rest, .Operator fid (.LowerThan numeric))
          else if op = toChars "<=" then .ok (rest, .Operator fid (.LowerThanOrEqual numeric))
          else if op = toChars ">=" then .ok (rest, .Operator fid (.GreaterThanOrEqual numeric))
          else .error (.soft (VError.fromKind rest .altK))
      else .error (.soft (VError.fromKind rest .altK))

/-- The leading tuple of `parse_to` (lines 211-216):
`tuple((ws(parse_value), ws(parse_value), tag("TO"), ws(parse_value)))`. -/
def toHead (input : Chars) : PResult (Chars × Chars × Chars) :=
  match wsP parseValue input with
  | .error e => .error e
  | .ok (r1, key) =>
    match wsP parseValue r1 with
    | .error e => .error e
    | .ok (r2, fromv) =>
      match tagP (toChars "TO") r2 with
      | .error e => .error e
      | .ok (r3, _) =>
        match wsP parseValue r3 with
        | .error e => .error e
        | .ok (r4, tov) => .ok (r4, (key, fromv, tov))

/-- Model of `ParseContext::parse_to` (lines 207-224). -/
def parseTo (ctx : ParseContext) (input : Chars) : PResult FilterCondition :=
  match toHead input with
  | .error e => .error e
  | .ok (rest, (key, fromv, tov)) =>
    match parseFid ctx rest key with
    | .error e => .error e
    | .ok fid =>
      match parseNumericE fromv with
      | .error e => .error e
      | .ok nf =>
        match parseNumericE tov with
        | .error e => .error e
        | .ok nt => .ok (rest, .Operator fid (.Between nf nt))

/-- Fixed message of the geo-radius argument-count failure. -/
def geoArgsMsg : String :=
  "_geoRadius. The `_geoRadius` filter expect three arguments: `_geoRadius(latitude, longitude, radius)`"

/-- Fixed message of the latitude out-of-range failure. -/
def geoLatMsg : String := "_geoRadius. Latitude must be contained between -90 and 90 degrees."

/-- Fixed message of the longitude out-of-range failure. -/
def geoLngMsg : String := "_geoRadius. Longitude must be contained between -180 and 180 degrees."

/-- The argument-list parser of `parse_geo_radius` (lines 238-246):
`preceded(ws(tag("_geoRadius")), delimited(char('('),
separated_list1(tag(","), ws(recognize_float)), char(')')))`. -/
def geoArgs (input : Chars) : PResult (List Chars) :=
  match wsP (tagP (toChars "_geoRadius")) input with
  | .error e => .error e
  | .ok (r1, _) =>
    match charP '(' r1 with
    | .error e => .error e
    | .ok (r2, _) =>
      match sepList1 (tagP (toChars ",")) (wsP recognizeFloat) (r2.length + 1) r2 with
      | .error e => .error e
      | .ok (r3, args) =>
        match charP ')' r3 with
        | .error e => .error e
        | .ok (r4, _) => .ok (r4, args)

/-- Model of `ParseContext::parse_geo_radius` (lines 227-289).  When the
argument-list parse fails the failure spans the original input; after it
succeeds, `input` is rebound to the remainder and every later failure
spans that remainder.  The `_geo` directory lookup (lines 267-271) happens
after the numeric conversions and before the bound checks. -/
def parseGeoRadius (ctx : ParseContext) (input : Chars) : PResult FilterCondition :=
  match geoArgs input with
  | .error _e =>
    .error (.failure (VError.addContext input geoArgsMsg (VError.fromChar input '(')))
  | .ok (rest, args) =>
    match args with
    | [a0, a1, a2] =>
      match parseNumericE a0 with
      | .error e => .error e
      | .ok lat =>
        match parseNumericE a1 with
        | .error e => .error e
        | .ok lng =>
          match parseNumericE a2 with
          | .error e => .error e
          | .ok dis =>
            match ctx.fieldsIdsMap "_geo" with
            | none => .ok (rest, .Empty)
            | some fid =>
              if ¬(-90 ≤ lat ∧ lat ≤ 90) then
                .error (.failure (VError.addContext rest geoLatMsg (VError.fromChar rest '(')))
              else if ¬(-180 ≤ lng ∧ lng ≤ 180) then
                .error (.failure (VError.addContext rest geoLngMsg (VError.fromChar rest '(')))
              else .ok (rest, .Operator fid (.GeoLowerThan lat lng dis))
    | _ =>
      .error (.failure (VError.addContext rest geoArgsMsg (VError.fromChar rest '(')))

/-- Grammar productions of the descent parser, in precedence order:
`expression = or`, `or`, `and`, `not`, `primary`. -/
inductive GProd where
  | expr | orP | andP | notP | primP
  deriving DecidableEq, Repr

/-- The mutually recursive productions of `ParseContext` (lines 93-133 and
291-333), indexed by `GProd` and a fuel parameter.  Each transition between
productions spends one unit of fuel; with the fuel supplied by
`parseExpression` the out-of-fuel branch is unreachable, because the chain
`expr, or, and, not, prim` has length five and every re-entry into the
chain (`NOT`/`!` in `parse_not`, `(` in `parse_primary`) first consumes
input. -/
def parseF (ctx : ParseContext) : Nat → GProd → Chars → PResult FilterCondition
  | 0, _, input => .error (.soft (VError.fromKind input .eofK))
  | fuel + 1, .expr, input => parseF ctx fuel .orP input
  | fuel + 1, .orP, input =>
    match parseF ctx fuel .andP input with
    | .error e => .error e
    | .ok (i1, lhs) =>
      match many0F (fun c =>
          match wsP (tagP (toChars "OR")) c with
          | .error e => .error e
          | .ok (r, _) => parseF ctx fuel .andP r) (i1.length + 1) i1 with
      | .error e => .error e
      | .ok (i2, ors) => .ok (i2, ors.foldl (fun acc branch => .Or acc branch) lhs)
  | fuel + 1, .andP, input =>
    match parseF ctx fuel .notP input with
    | .error e => .error e
    | .ok (i1, lhs) =>
      match many0F (fun c =>
          match wsP (tagP (toChars "AND")) c with
          | .error e => .error e
          | .ok (r, _) => parseF ctx fuel .notP r) (i1.length + 1) i1 with
      | .error e => .error e
      | .ok (i2, ands) => .ok (i2, ands.foldl (fun acc branch => .And acc branch) lhs)
  | fuel + 1, .notP, input =>
    match altOr (tagP (toChars "!") input) fun _ => tagP (toChars "NOT") input with
    | .ok (r1, _) =>
      match parseF ctx fuel .notP r1 with
      | .ok (r2, e) => .ok (r2, e.negate)
      | .error (.soft _) => parseF ctx fuel .primP input
      | .error e => .error e
    | .error (.soft _) => parseF ctx fuel .primP input
    | .error e => .error e
  | fuel + 1, .primP, input =>
    altOr (
      match wsP (charP '(') input with
      | .error e => .error e
      | .ok (r1, _) =>
        match parseF ctx fuel .expr r1 with
        | .error e => .error e
        | .ok (r2, e) =>
          match wsP (charP ')') r2 with
          | .error e2 => .error e2
          | .ok (r3, _) => .ok (r3, e)) fun _ =>
    altOr (parseCondition ctx input) fun _ =>
    altOr (parseTo ctx input) fun _ =>
    parseGeoRadius ctx input

/-- Model of `ParseContext::parse_expression` (lines 328-333): the `or`
production, with enough fuel that exhaustion is unreachable for the given
input. -/
def parseExpression (ctx : ParseContext) (input : Chars) : PResult FilterCondition :=
  parseF ctx (5 * (input.length + 1)) .expr input

/-- Satisfaction of an operator by a numeric field value `x` (the
numeric-comparison fragment used to state equivalences between condition
trees; string-only equality and geo operators do not apply to a single
numeric value and are unsatisfied). -/
def Operator.numSatB (x : ℚ) : Operator → Bool
  | .GreaterThan n => decide (n < x)
  | .GreaterThanOrEqual n => decide (n ≤ x)
  | .LowerThan n => decide (x < n)
  | .LowerThanOrEqual n => decide (x ≤ n)
  | .Between a b => decide (a ≤ x) && decide (x ≤ b)
  | .Equal (some n) _ => decide (x = n)
  | .Equal none _ => false
  | .NotEqual (some n) _ => decide (x ≠ n)
  | .NotEqual none _ => false
  | .GeoLowerThan _ _ _ => false
  | .GeoGreaterThan _ _ _ => false

/-- Satisfaction of a condition tree by a numeric field value. -/
def FilterCondition.numSatB (x : ℚ) : FilterCondition → Bool
  | .Operator _ op => op.numSatB x
  | .Or a b => a.numSatB x || b.numSatB x
  | .And a b => a.numSatB x && b.numSatB x
  | .Empty => false

/-- C1 counterexample: a single `negate` of `Between(1,2)` does yield the
pair `(LowerThan 1, GreaterThan 2)`, but the OR-disjunction of negating
each of those two results, `Or(GreaterThanOrEqual 1, LowerThanOrEqual 2)`,
is not equivalent to the original `Between(1,2)` leaf: the value `0`
satisfies the disjunction and not the `Between`. -/
theorem negate_between_or_disjunction_cex :
    (Operator.Between 1 2).negate = (.LowerThan 1, some (.GreaterThan 2)) ∧
    ¬ ∀ x : ℚ,
        (FilterCondition.Or
          (.Operator 0 ((Operator.LowerThan 1).negate.1))
          (.Operator 0 ((Operator.GreaterThan 2).negate.1))).numSatB x
        = (FilterCondition.Operator 0 (.Between 1 2)).numSatB x := by
  refine ⟨by decide, fun h => ?_⟩
  have h0 := h 0
  revert h0
  decide

/-- C1 (amended): for every operator other than `Between`, `negate` returns
a single operator and applying it twice is the identity; `negate` of
`Between(a,b)` yields the pair `(LowerThan a, GreaterThan b)`, and the
AND-conjunction of negating each of those two results — which is exactly
the tree-level double negation of the `Between` leaf — is equivalent to
the original leaf. -/
theorem negate_double_negation (op : Operator) (fid : Nat) :
    ((∀ a b, op ≠ .Between a b) →
      op.negate.2 = none ∧ op.negate.1.negate = (op, none)) ∧
    (∀ a b, op = .Between a b →
      op.negate = (.LowerThan a, some (.GreaterThan b)) ∧
      (FilterCondition.Operator fid op).negate.negate =
        .And (.Operator fid ((Operator.LowerThan a).negate.1))
             (.Operator fid ((Operator.GreaterThan b).negate.1)) ∧
      ∀ x : ℚ, (FilterCondition.Operator fid op).negate.negate.numSatB x =
        (FilterCondition.Operator fid op).numSatB x) := by
  constructor
  · intro hne
    cases op <;> first
      | exact absurd rfl (hne _ _)
      | exact ⟨rfl, rfl⟩
  · intro a b h
    subst h
    exact ⟨rfl, rfl, fun x => rfl⟩

/-- Witness for `negate_double_negation`, applying it at `GreaterThan 5`
and at `Between 1 2`. -/
theorem negate_double_negation_witness :
    ((Operator.GreaterThan 5).negate.2 = none ∧
      (Operator.GreaterThan 5).negate.1.negate = (Operator.GreaterThan 5, none)) ∧
    (Operator.Between 1 2).negate = (.LowerThan 1, some (.GreaterThan 2)) :=
  ⟨(negate_double_negation (.GreaterThan 5) 0).1 (fun _ _ h => Operator.noConfusion h),
   ((negate_double_negation (.Between 1 2) 0).2 1 2 rfl).1⟩

/-- C2: for every schema resolving `a`, `b`, `c` (arbitrary field ids,
arbitrary behavior on other names), `"a = 1 AND b = 2 OR c = 3"` parses to
`Or(And(a=1, b=2), c=3)` — OR folds over AND terms — and
`"a = 1 AND (b = 2 OR c = 3)"` parses to `And(a=1, Or(b=2, c=3))` —
parentheses override the precedence. -/
theorem parse_precedence_and_parentheses
    (m : String → Option Nat) (φ : String → Bool) (fa fb fc : Nat)
    (ha : m "a" = some fa) (hb : m "b" = some fb) (hc : m "c" = some fc)
    (pa : φ "a" = true) (pb : φ "b" = true) (pc : φ "c" = true) :
    parseExpression ⟨m, φ⟩ (toChars "a = 1 AND b = 2 OR c = 3") =
      .ok ([], .Or (.And (.Operator fa (.Equal (some 1) "1"))
                         (.Operator fb (.Equal (some 2) "2")))
                   (.Operator fc (.Equal (some 3) "3"))) ∧
    parseExpression ⟨m, φ⟩ (toChars "a = 1 AND (b = 2 OR c = 3)") =
      .ok ([], .And (.Operator fa (.Equal (some 1) "1"))
                    (.Or (.Operator fb (.Equal (some 2) "2"))
                         (.Operator fc (.Equal (some 3) "3")))) := by
  have hm : m = fun s => if s = "a" then some fa else if s = "b" then some fb
      else if s = "c" then some fc else m s := by
    funext s
    split_ifs with h1 h2 h3
    · exact h1.symm ▸ ha
    · exact h2.symm ▸ hb
    · exact h3.symm ▸ hc
    · rfl
  have hphi : φ = fun s => if s = "a" then true else if s = "b" then true
      else if s = "c" then true else φ s := by
    funext s
    split_ifs with h1 h2 h3
    · exact h1.symm ▸ pa
    · exact h2.symm ▸ pb
    · exact h3.symm ▸ pc
    · rfl
  rw [hm, hphi]
  constructor
  · with_unfolding_all rfl
  · with_unfolding_all rfl

/-- Directory of a concrete schema with fields `a`, `b`, `c`. -/
def mapABC : String → Option Nat :=
  fun s => if s = "a" then some 0 else if s = "b" then some 1
    else if s = "c" then some 2 else none

/-- Filterable set of the concrete schema with fields `a`, `b`, `c`. -/
def filterableABC : String → Bool := fun s => s == "a" || s == "b" || s == "c"

/-- Witness for `parse_precedence_and_parentheses` at the concrete
`a`, `b`, `c` schema. -/
theorem parse_precedence_and_parentheses_witness :
    parseExpression ⟨mapABC, filterableABC⟩ (toChars "a = 1 AND b = 2 OR c = 3") =
      .ok ([], .Or (.And (.Operator 0 (.Equal (some 1) "1"))
                         (.Operator 1 (.Equal (some 2) "2")))
                   (.Operator 2 (.Equal (some 3) "3"))) ∧
    parseExpression ⟨mapABC, filterableABC⟩ (toChars "a = 1 AND (b = 2 OR c = 3)") =
      .ok ([], .And (.Operator 0 (.Equal (some 1) "1"))
                    (.Or (.Operator 1 (.Equal (some 2) "2"))
                         (.Operator 2 (.Equal (some 3) "3")))) :=
  parse_precedence_and_parentheses mapABC filterableABC 0 1 2 rfl rfl rfl rfl rfl rfl

/-- C3: for a condition whose operator is `=` or `!=` and whose attribute
resolves, the parse always succeeds: the string comparand is the
lowercased right-hand value, and the numeric payload is the result of the
attempted numeric parse — populated on success, absent on failure, the
failure never surfacing as an error. -/
theorem parse_condition_equality (ctx : ParseContext) (input rest key op value : Chars) (fid : Nat)
    (hhead : conditionHead input = .ok (rest, (key, op, value)))
    (hfid : parseFid ctx rest key = .ok fid) :
    (op = toChars "=" →
      parseCondition ctx input =
        .ok (rest, .Operator fid (.Equal (parseNumericE value).toOption (lowerString value)))) ∧
    (op = toChars "!=" →
      parseCondition ctx input =
        .ok (rest, .Operator fid (.NotEqual (parseNumericE value).toOption (lowerString value)))) ∧
    (parseNumericE value).toOption = parseFloatQ value := by
  refine ⟨?_, ?_, ?_⟩
  · intro hop
    subst hop
    unfold parseCondition
    rw [hhead]
    simp +decide [hfid]
  · intro hop
    subst hop
    unfold parseCondition
    rw [hhead]
    simp +decide [hfid]
  · cases h : parseFloatQ value with
    | none => cases value <;> simp [parseNumericE, h, Except.toOption]
    | some n => simp [parseNumericE, h, Except.toOption]

/-- Schema with the single filterable field `a`. -/
def ctxA : ParseContext := ⟨fun s => if s = "a" then some 0 else none, fun s => s == "a"⟩

/-- Witness for `parse_condition_equality`: a non-numeric right value
lowercased with absent numeric payload, and a numeric one with the payload
populated. -/
theorem parse_condition_equality_witness :
    parseCondition ctxA (toChars "a = Ponce") = .ok ([], .Operator 0 (.Equal none "ponce")) ∧
    parseCondition ctxA (toChars "a != 12") = .ok ([], .Operator 0 (.NotEqual (some 12) "12")) :=
  ⟨((parse_condition_equality ctxA (toChars "a = Ponce") [] (toChars "a") (toChars "=")
      (toChars "Ponce") 0 (by with_unfolding_all rfl) (by with_unfolding_all rfl)).1
      rfl).trans (by with_unfolding_all rfl),
   (((parse_condition_equality ctxA (toChars "a != 12") [] (toChars "a") (toChars "!=")
      (toChars "12") 0 (by with_unfolding_all rfl) (by with_unfolding_all rfl)).2).1
      rfl).trans (by with_unfolding_all rfl)⟩

/-- C4: for a condition whose operator is `>`, `<`, `>=` or `<=` and whose
attribute resolves, a right-hand value that does not parse as a number is
a hard `Failure` (not a soft backtrack) carrying the value's first
character. -/
theorem parse_condition_numeric_failure (ctx : ParseContext) (input rest key op value : Chars)
    (fid : Nat) (c : Char) (cs : Chars)
    (hhead : conditionHead input = .ok (rest, (key, op, value)))
    (hop : op = toChars ">" ∨ op = toChars "<" ∨ op = toChars ">=" ∨ op = toChars "<=")
    (hfid : parseFid ctx rest key = .ok fid)
    (hval : value = c :: cs)
    (hnum : parseFloatQ value = none) :
    parseCondition ctx input = .error (.failure (VError.fromChar value c)) := by
  have hne : parseNumericE value = .error (.failure (VError.fromChar value c)) := by
    unfold parseNumericE
    rw [hnum, hval]
  unfold parseCondition
  rw [hhead]
  rcases hop with h | h | h | h <;> subst h <;> simp +decide [hfid, hne]

/-- Witness for `parse_condition_numeric_failure` at `"a > foo"`. -/
theorem parse_condition_numeric_failure_witness :
    parseCondition ctxA (toChars "a > foo") = .error (.failure (VError.fromChar (toChars "foo") 'f')) :=
  parse_condition_numeric_failure ctxA (toChars "a > foo") [] (toChars "a") (toChars ">")
    (toChars "foo") 0 'f' (toChars "oo") (by with_unfolding_all rfl) (Or.inl rfl)
    (by with_unfolding_all rfl) (by with_unfolding_all rfl) (by with_unfolding_all rfl)

/-- C5 (amended): attribute resolution succeeds with a field id exactly when
the name is in the name-to-identifier directory and in the filterable-name
set; in every other case it fails hard with the `Attribute is not
filterable` error — never a silently-empty result — whose recorded span is
the remaining input passed to `parse_fid`, not the attribute's own span. -/
theorem parse_fid_resolution (ctx : ParseContext) (input key : Chars) :
    (∀ fid : Nat, parseFid ctx input key = .ok fid ↔
      ctx.fieldsIdsMap (String.mk key) = some fid ∧ ctx.filterableFields (String.mk key) = true) ∧
    (ctx.fieldsIdsMap (String.mk key) = none ∨ ctx.filterableFields (String.mk key) = false →
      parseFid ctx input key =
        .error (.failure (VError.addContext input attrNotFilterableMsg (VError.fromChar input 'T')))) := by
  constructor
  · intro fid
    unfold parseFid
    cases h : ctx.fieldsIdsMap (String.mk key) with
    | none => simp [h]
    | some f =>
      cases hp : ctx.filterableFields (String.mk key) with
      | false => simp [hp]
      | true => simp [hp]
  · intro h
    unfold parseFid
    rcases h with h | h
    · rw [h]
    · cases hm : ctx.fieldsIdsMap (String.mk key) with
      | none => rfl
      | some f => simp [h]

/-- C5 counterexample: resolving the unknown attribute `xyz` with remaining
input `" AND a = 2"` fails with the `AttributeNotFilterable` error, but
every span recorded in that error is the remaining input — none of them is
the offending attribute's span `xyz`. -/
theorem parse_fid_attribute_span_cex :
    parseFid ctxA (toChars " AND a = 2") (toChars "xyz") =
      .error (.failure (VError.addContext (toChars " AND a = 2") attrNotFilterableMsg
        (VError.fromChar (toChars " AND a = 2") 'T'))) ∧
    ∀ q ∈ (VError.addContext (toChars " AND a = 2") attrNotFilterableMsg
        (VError.fromChar (toChars " AND a = 2") 'T')).errors,
      q.1 ≠ toChars "xyz" := by
  constructor
  · with_unfolding_all rfl
  · decide

/-- Witness for `parse_fid_resolution`: successful resolution of `a`, and
the failure on a name absent from the directory. -/
theorem parse_fid_resolution_witness :
    parseFid ctxA [] (toChars "a") = .ok 0 ∧
    parseFid ctxA [] (toChars "zzz") =
      .error (.failure (VError.addContext [] attrNotFilterableMsg (VError.fromChar [] 'T'))) :=
  ⟨((parse_fid_resolution ctxA [] (toChars "a")).1 0).2
      ⟨by with_unfolding_all rfl, by with_unfolding_all rfl⟩,
   (parse_fid_resolution ctxA [] (toChars "zzz")).2 (Or.inl (by with_unfolding_all rfl))⟩

/-- C6: a range expression whose three parts lex, whose attribute resolves
and whose bounds parse as numbers yields the single leaf
`Between(from, to)` with the bounds exactly in the order written (no
reordering even when `from > to`), the field resolved once. -/
theorem parse_to_between_order (ctx : ParseContext) (input rest key fromv tov : Chars)
    (fid : Nat) (nf nt : ℚ)
    (hhead : toHead input = .ok (rest, (key, fromv, tov)))
    (hfid : parseFid ctx rest key = .ok fid)
    (hf : parseNumericE fromv = .ok nf)
    (ht : parseNumericE tov = .ok nt) :
    parseTo ctx input = .ok (rest, .Operator fid (.Between nf nt)) := by
  unfold parseTo
  rw [hhead]
  simp [hfid, hf, ht]

/-- Witness for `parse_to_between_order` at `"a 30 TO 10"`: the bounds stay
in written order even though `from > to`. -/
theorem parse_to_between_order_witness :
    parseTo ctxA (toChars "a 30 TO 10") = .ok ([], .Operator 0 (.Between 30 10)) :=
  parse_to_between_order ctxA (toChars "a 30 TO 10") [] (toChars "a") (toChars "30")
    (toChars "10") 0 30 10 (by with_unfolding_all rfl) (by with_unfolding_all rfl)
    (by with_unfolding_all rfl) (by with_unfolding_all rfl)

/-- Schema whose directory has `_geo` (id 7) and whose filterable set is
empty. -/
def ctxGeo : ParseContext := ⟨fun s => if s = "_geo" then some 7 else none, fun _ => false⟩

/-- Schema with an empty directory and an empty filterable set. -/
def ctxNoGeo : ParseContext := ⟨fun _ => none, fun _ => false⟩

/-- C7: whenever the parenthesized comma-separated argument list of
`_geoRadius` fails to parse, or parses to a list whose length is not
three, the result is a hard failure carrying the fixed message naming the
required three-argument form. -/
theorem geo_radius_arg_count (ctx : ParseContext) (input : Chars) :
    (∀ e, geoArgs input = .error e →
      parseGeoRadius ctx input =
        .error (.failure (VError.addContext input geoArgsMsg (VError.fromChar input '(')))) ∧
    (∀ rest args, geoArgs input = .ok (rest, args) → args.length ≠ 3 →
      parseGeoRadius ctx input =
        .error (.failure (VError.addContext rest geoArgsMsg (VError.fromChar rest '(')))) := by
  constructor
  · intro e he
    unfold parseGeoRadius
    rw [he]
  · intro rest args h hlen
    unfold parseGeoRadius
    rw [h]
    rcases args with _ | ⟨a0, _ | ⟨a1, _ | ⟨a2, _ | ⟨a3, t⟩⟩⟩⟩
    · rfl
    · rfl
    · rfl
    · exact absurd rfl hlen
    · rfl

/-- Witness for `geo_radius_arg_count`: two arguments, and a missing
argument list. -/
theorem geo_radius_arg_count_witness :
    parseGeoRadius ctxNoGeo (toChars "_geoRadius(1, 2)") =
      .error (.failure (VError.addContext [] geoArgsMsg (VError.fromChar [] '('))) ∧
    parseGeoRadius ctxNoGeo (toChars "_geoRadius") =
      .error (.failure (VError.addContext (toChars "_geoRadius") geoArgsMsg
        (VError.fromChar (toChars "_geoRadius") '('))) :=
  ⟨(geo_radius_arg_count ctxNoGeo (toChars "_geoRadius(1, 2)")).2 [] [toChars "1", toChars "2"]
      (by with_unfolding_all rfl) (by decide),
   (geo_radius_arg_count ctxNoGeo (toChars "_geoRadius")).1
      (.soft (VError.fromChar [] '(')) (by with_unfolding_all rfl)⟩

/-- C8 (amended): when the three `_geoRadius` arguments parse as numbers
and the fixed geo field `_geo` is present in the directory, a latitude
outside `[-90, 90]` is a hard failure with the latitude message, and an
in-range latitude with a longitude outside `[-180, 180]` is a hard failure
with the longitude message. -/
theorem geo_radius_bounds_checked (ctx : ParseContext) (input rest a0 a1 a2 : Chars)
    (lat lng dis : ℚ) (fid : Nat)
    (hargs : geoArgs input = .ok (rest, [a0, a1, a2]))
    (h0 : parseNumericE a0 = .ok lat) (h1 : parseNumericE a1 = .ok lng)
    (h2 : parseNumericE a2 = .ok dis)
    (hgeo : ctx.fieldsIdsMap "_geo" = some fid) :
    (¬(-90 ≤ lat ∧ lat ≤ 90) →
      parseGeoRadius ctx input =
        .error (.failure (VError.addContext rest geoLatMsg (VError.fromChar rest '(')))) ∧
    ((-90 ≤ lat ∧ lat ≤ 90) → ¬(-180 ≤ lng ∧ lng ≤ 180) →
      parseGeoRadius ctx input =
        .error (.failure (VError.addContext rest geoLngMsg (VError.fromChar rest '(')))) := by
  constructor
  · intro hout
    unfold parseGeoRadius
    rw [hargs]
    simp only [h0, h1, h2, hgeo]
    rw [if_pos hout]
  · intro hin hout
    unfold parseGeoRadius
    rw [hargs]
    simp only [h0, h1, h2, hgeo]
    rw [if_neg (not_not_intro hin), if_pos hout]

/-- Witness for `geo_radius_bounds_checked`: latitude `-100` and longitude
`250` with `_geo` present. -/
theorem geo_radius_bounds_checked_witness :
    parseGeoRadius ctxGeo (toChars "_geoRadius(-100, 150, 10)") =
      .error (.failure (VError.addContext [] geoLatMsg (VError.fromChar [] '('))) ∧
    parseGeoRadius ctxGeo (toChars "_geoRadius(-10, 250, 10)") =
      .error (.failure (VError.addContext [] geoLngMsg (VError.fromChar [] '('))) :=
  ⟨(geo_radius_bounds_checked ctxGeo (toChars "_geoRadius(-100, 150, 10)") []
      (toChars "-100") (toChars "150") (toChars "10") (-100) 150 10 7
      (by with_unfolding_all rfl) (by with_unfolding_all rfl) (by with_unfolding_all rfl)
      (by with_unfolding_all rfl) rfl).1 (by decide),
   (geo_radius_bounds_checked ctxGeo (toChars "_geoRadius(-10, 250, 10)") []
      (toChars "-10") (toChars "250") (toChars "10") (-10) 250 10 7
      (by with_unfolding_all rfl) (by with_unfolding_all rfl) (by with_unfolding_all rfl)
      (by with_unfolding_all rfl) rfl).2 (by decide) (by decide)⟩

/-- C8 counterexample: on a schema lacking `_geo`, `_geoRadius` with the
out-of-range latitude `-100` does not fail at all — it succeeds with the
`Empty` node — so an out-of-range latitude does not by itself cause a hard
parse failure. -/
theorem geo_radius_out_of_range_cex :
    parseGeoRadius ctxNoGeo (toChars "_geoRadius(-100, 150, 10)") = .ok ([], .Empty) ∧
    ∀ e, parseGeoRadius ctxNoGeo (toChars "_geoRadius(-100, 150, 10)") ≠ .error e := by
  have h : parseGeoRadius ctxNoGeo (toChars "_geoRadius(-100, 150, 10)") = .ok ([], .Empty) := by
    with_unfolding_all rfl
  exact ⟨h, fun e he => by rw [h] at he; exact Except.noConfusion he⟩

/-- C9: the `_geoRadius` attribute is resolved against the fixed name
`_geo` (never a name from the input): for any input whose arguments parse,
if the directory lacks `_geo` the clause succeeds with the `Empty` node
instead of failing, and if `_geo` resolves and the bounds are in range the
result is `GeoLowerThan([lat, lng], radius)` on that field. -/
theorem geo_radius_fixed_field (ctx : ParseContext) (input rest a0 a1 a2 : Chars)
    (lat lng dis : ℚ)
    (hargs : geoArgs input = .ok (rest, [a0, a1, a2]))
    (h0 : parseNumericE a0 = .ok lat) (h1 : parseNumericE a1 = .ok lng)
    (h2 : parseNumericE a2 = .ok dis) :
    (ctx.fieldsIdsMap "_geo" = none → parseGeoRadius ctx input = .ok (rest, .Empty)) ∧
    (∀ fid, ctx.fieldsIdsMap "_geo" = some fid →
      (-90 ≤ lat ∧ lat ≤ 90) → (-180 ≤ lng ∧ lng ≤ 180) →
      parseGeoRadius ctx input = .ok (rest, .Operator fid (.GeoLowerThan lat lng dis))) := by
  constructor
  · intro hnone
    unfold parseGeoRadius
    rw [hargs]
    simp only [h0, h1, h2, hnone]
  · intro fid hsome hlat hlng
    unfold parseGeoRadius
    rw [hargs]
    simp only [h0, h1, h2, hsome]
    rw [if_neg (not_not_intro hlat), if_neg (not_not_intro hlng)]

/-- Witness for `geo_radius_fixed_field`: the same clause with `_geo`
absent (Empty) and present (GeoLowerThan). -/
theorem geo_radius_fixed_field_witness :
    parseGeoRadius ctxNoGeo (toChars "_geoRadius(12, 13, 14)") = .ok ([], .Empty) ∧
    parseGeoRadius ctxGeo (toChars "_geoRadius(12, 13, 14)") =
      .ok ([], .Operator 7 (.GeoLowerThan 12 13 14)) :=
  ⟨(geo_radius_fixed_field ctxNoGeo (toChars "_geoRadius(12, 13, 14)") []
      (toChars "12") (toChars "13") (toChars "14") 12 13 14
      (by with_unfolding_all rfl) (by with_unfolding_all rfl) (by with_unfolding_all rfl)
      (by with_unfolding_all rfl)).1 rfl,
   (geo_radius_fixed_field ctxGeo (toChars "_geoRadius(12, 13, 14)") []
      (toChars "12") (toChars "13") (toChars "14") 12 13 14
      (by with_unfolding_all rfl) (by with_unfolding_all rfl) (by with_unfolding_all rfl)
      (by with_unfolding_all rfl)).2 7 rfl (by decide) (by decide)⟩

/-- C10: the `_geoRadius` path consults only the directory for `_geo`,
never the filterable set, and does so before validating the bounds: with
`_geo` in the directory but not filterable and in-range arguments the
clause succeeds with `GeoLowerThan`, and with `_geo` absent the clause
succeeds with `Empty` even when the latitude or longitude is out of
range. -/
theorem geo_radius_schema_quirks (ctx : ParseContext) (input rest a0 a1 a2 : Chars)
    (lat lng dis : ℚ)
    (hargs : geoArgs input = .ok (rest, [a0, a1, a2]))
    (h0 : parseNumericE a0 = .ok lat) (h1 : parseNumericE a1 = .ok lng)
    (h2 : parseNumericE a2 = .ok dis) :
    (∀ fid, ctx.fieldsIdsMap "_geo" = some fid → ctx.filterableFields "_geo" = false →
      (-90 ≤ lat ∧ lat ≤ 90) → (-180 ≤ lng ∧ lng ≤ 180) →
      parseGeoRadius ctx input = .ok (rest, .Operator fid (.GeoLowerThan lat lng dis))) ∧
    (ctx.fieldsIdsMap "_geo" = none →
      (¬(-90 ≤ lat ∧ lat ≤ 90) ∨ ¬(-180 ≤ lng ∧ lng ≤ 180)) →
      parseGeoRadius ctx input = .ok (rest, .Empty)) := by
  constructor
  · intro fid hsome hnotfilt hlat hlng
    unfold parseGeoRadius
    rw [hargs]
    simp only [h0, h1, h2, hsome]
    rw [if_neg (not_not_intro hlat), if_neg (not_not_intro hlng)]
  · intro hnone hout
    unfold parseGeoRadius
    rw [hargs]
    simp only [h0, h1, h2, hnone]

/-- Witness for `geo_radius_schema_quirks`: `ctxGeo` has `_geo` in the
directory with an empty filterable set, and `ctxNoGeo` lacks `_geo` while
both bounds are out of range. -/
theorem geo_radius_schema_quirks_witness :
    parseGeoRadius ctxGeo (toChars "_geoRadius(12, 13, 14)") =
      .ok ([], .Operator 7 (.GeoLowerThan 12 13 14)) ∧
    parseGeoRadius ctxNoGeo (toChars "_geoRadius(-100, 250, 10)") = .ok ([], .Empty) :=
  ⟨(geo_radius_schema_quirks ctxGeo (toChars "_geoRadius(12, 13, 14)") []
      (toChars "12") (toChars "13") (toChars "14") 12 13 14
      (by with_unfolding_all rfl) (by with_unfolding_all rfl) (by with_unfolding_all rfl)
      (by with_unfolding_all rfl)).1 7 rfl rfl (by decide) (by decide),
   (geo_radius_schema_quirks ctxNoGeo (toChars "_geoRadius(-100, 250, 10)") []
      (toChars "-100") (toChars "250") (toChars "10") (-100) 250 10
      (by with_unfolding_all rfl) (by with_unfolding_all rfl) (by with_unfolding_all rfl)
      (by with_unfolding_all rfl)).2 rfl (Or.inl (by decide))⟩
